import Mathlib

/-
  Verification development for the blog-summarizer pipeline
  (extractive summarizer, dictionary translators, response parser,
  translation-quality validator, and the Gemini orchestrator wrappers).

  The TypeScript sources are shallowly embedded as Lean functions.
  JavaScript strings are modelled as Lean `String`/`List Char`; where the
  source measures `String.length` (UTF-16 code units) we use `utf16Len`,
  which counts 2 for characters above U+FFFF.  JavaScript regular
  expressions used by the source are modelled by dedicated scanners that
  reproduce the behaviour of the concrete patterns appearing in the code.
  `toLowerCase` is modelled on the ASCII range (all dictionary keys and
  scored keywords are ASCII).  Floating-point products with the literals
  0.2, 0.3, 0.7, 0.8 are modelled by the exact rational comparisons
  (5*i < n, 10*a < 3*b, 10*a > 7*b, 5*i > 4*n); the binary rounding of
  the source can differ from the rational value only at boundary inputs
  that no theorem below depends on.
-/

namespace JsStr

/-- Characters matched by the JavaScript regex class `\\s`
    (space, tab, line terminators, and the Unicode space separators,
    identified here by code point). -/
def isJsWs (c : Char) : Bool :=
  let n := c.toNat
  n == 0x20 || n == 0x09 || n == 0x0a || n == 0x0d || n == 0x0b || n == 0x0c ||
  n == 0xa0 || n == 0x1680 || (decide (0x2000 ≤ n) && decide (n ≤ 0x200a)) ||
  n == 0x2028 || n == 0x2029 || n == 0x202f || n == 0x205f || n == 0x3000 ||
  n == 0xfeff

/-- JS `String.length`: UTF-16 code units (astral characters count twice). -/
def utf16Len (l : List Char) : Nat :=
  (l.map (fun c => if c.toNat ≥ 0x10000 then 2 else 1)).sum

/-- JS `String.prototype.trim` on a character list. -/
def jsTrim (l : List Char) : List Char :=
  ((l.dropWhile isJsWs).reverse.dropWhile isJsWs).reverse

/-- JS `String.prototype.trim` on a string. -/
def jsTrimStr (s : String) : String :=
  String.mk (jsTrim s.toList)

/-- Scanner for JS `split` on a one-or-more character-class regex
    (such as `/\s+/` or `/[.!?]+/`): pieces between maximal runs of
    separator characters; an empty piece appears at the start (end) when
    the input starts (ends) with a separator.  `inSep` records whether the
    previous character belonged to a separator run. -/
def splitRunsGo (p : Char → Bool) : List Char → List Char → Bool → List (List Char)
  | [], acc, _ => [acc.reverse]
  | c :: rest, acc, inSep =>
    if p c then
      if inSep then splitRunsGo p rest [] true
      else acc.reverse :: splitRunsGo p rest [] true
    else splitRunsGo p rest (c :: acc) false

/-- JS `str.split(regex)` for a `[class]+` regex. -/
def splitRuns (p : Char → Bool) (l : List Char) : List (List Char) :=
  splitRunsGo p l [] false

/-- JS `str.split(sep)` for a one-character literal separator. -/
def splitChGo (sep : Char) : List Char → List Char → List (List Char)
  | acc, [] => [acc.reverse]
  | acc, c :: rest =>
    if c = sep then acc.reverse :: splitChGo sep [] rest
    else splitChGo sep (c :: acc) rest

/-- JS `str.split(sep)` on a character list. -/
def splitCh (sep : Char) (l : List Char) : List (List Char) :=
  splitChGo sep [] l

/-- JS `str.replace(/\s+/g, " ")`: collapse each whitespace run to a
    single space. -/
def collapseWsGo : Bool → List Char → List Char
  | _, [] => []
  | prevWs, c :: rest =>
    if isJsWs c then
      if prevWs then collapseWsGo true rest
      else ' ' :: collapseWsGo true rest
    else c :: collapseWsGo false rest

/-- Collapse whitespace runs to single spaces. -/
def collapseWs (l : List Char) : List Char :=
  collapseWsGo false l

/-- JS ASCII lower-casing of one character (`toLowerCase` restricted to
    the ASCII range; all lookups in the sources use ASCII keys). -/
def jsToLower (c : Char) : Char :=
  if 65 ≤ c.toNat ∧ c.toNat ≤ 90 then Char.ofNat (c.toNat + 32) else c

/-- JS `str.toLowerCase()` (ASCII model). -/
def jsLower (l : List Char) : List Char :=
  l.map jsToLower

/-- Substring containment, JS `str.includes(sub)`. -/
def containsSub (needle : List Char) : List Char → Bool
  | [] => needle.isEmpty
  | c :: rest => needle.isPrefixOf (c :: rest) || containsSub needle rest

/-- Count of maximal runs of characters satisfying `p`
    (JS `(str.match(/[class]+/g) || []).length`).  `inRun` records whether
    the previous character was in such a run. -/
def countRunsGo (p : Char → Bool) : Bool → List Char → Nat
  | _, [] => 0
  | inRun, c :: rest =>
    if p c then (if inRun then 0 else 1) + countRunsGo p true rest
    else countRunsGo p false rest

/-- Count of maximal `p`-runs in `l`. -/
def countRuns (p : Char → Bool) (l : List Char) : Nat :=
  countRunsGo p false l

/-- Join a list of character lists with a separator,
    JS `Array.prototype.join`. -/
def joinSep (sep : List Char) (l : List (List Char)) : List Char :=
  List.intercalate sep l

/-- Stable insertion preserving earlier elements whenever `le y x`
    (element `x` is inserted after every retained `y` with `le y x`). -/
def stableInsert (le : α → α → Bool) (x : α) : List α → List α
  | [] => [x]
  | y :: ys => if le y x then y :: stableInsert le x ys else x :: y :: ys

/-- Stable sort with respect to the comparator-derived relation `le`:
    the model of the (stable) JS `Array.prototype.sort`. -/
def stableSort (le : α → α → Bool) (l : List α) : List α :=
  l.foldl (fun acc x => stableInsert le x acc) []

end JsStr

/-
  Model of JavaScript JSON values and `JSON.parse`.  Numbers are kept as
  their raw source text (they are only ever consulted for truthiness in
  this development); a `\uXXXX` escape denoting a lone surrogate is
  modelled as U+FFFD since a Lean `Char` cannot hold a surrogate (no
  theorem below evaluates such an input).
-/

inductive Json where
  | null : Json
  | bool (b : Bool) : Json
  | num (raw : String) : Json
  | str (s : String) : Json
  | arr (elems : List Json) : Json
  | obj (fields : List (String × Json)) : Json
deriving Repr

/-- A JSON number literal denotes zero exactly when its mantissa contains
    no nonzero digit. -/
def Json.numIsZero (raw : String) : Bool :=
  (raw.toList.takeWhile (fun c => c ≠ 'e' ∧ c ≠ 'E')).all
    (fun c => !(c.isDigit && c ≠ '0'))

/-- JS truthiness of a parsed JSON value. -/
def Json.jsTruthy : Json → Bool
  | .null => false
  | .bool b => b
  | .num raw => !Json.numIsZero raw
  | .str s => s ≠ ""
  | .arr _ => true
  | .obj _ => true

/-- JS truthiness of a possibly-undefined value. -/
def jsTruthyOpt : Option Json → Bool
  | none => false
  | some j => j.jsTruthy

/-- JS `v || dflt` for a possibly-undefined value `v`. -/
def jsTruthyOr (v : Option Json) (dflt : Json) : Json :=
  match v with
  | some j => if j.jsTruthy then j else dflt
  | none => dflt

/-- JS property access `obj[k]` on a parsed JSON object: the last binding
    of a duplicated key wins; access on a non-object yields undefined. -/
def Json.getField : Json → String → Option Json
  | .obj fields, k => fields.reverse.lookup k
  | _, _ => none

/-- JS string coercion of a value (template literals, string-typed
    positions).  Arrays coerce by joining their coerced elements with
    commas; that case is unreachable in this development and is modelled
    as the empty string. -/
def jsStringOf : Json → String
  | .null => "null"
  | .bool true => "true"
  | .bool false => "false"
  | .num raw => raw
  | .str s => s
  | .arr _ => ""
  | .obj _ => "[object Object]"

/-- Is the value a parsed JSON string? -/
def Json.isStr : Json → Bool
  | .str _ => true
  | _ => false

/-- The string carried by a parsed JSON string.  Non-string constructors
    are only ever consulted behind a thrown-TypeError guard (see
    `GeminiService.combinedThrows`), where the source throws before
    using the value. -/
def Json.strValue : Json → String
  | .str s => s
  | _ => ""

/-- Whitespace accepted between JSON tokens. -/
def jsonSkipWs (l : List Char) : List Char :=
  l.dropWhile (fun c => c = ' ' ∨ c = '\t' ∨ c = '\n' ∨ c = '\r')

/-- Value of one hexadecimal digit. -/
def hexDigitVal (c : Char) : Option Nat :=
  if c.isDigit then some (c.toNat - 48)
  else if 'a' ≤ c ∧ c ≤ 'f' then some (c.toNat - 87)
  else if 'A' ≤ c ∧ c ≤ 'F' then some (c.toNat - 55)
  else none

/-- Body of a JSON string literal (after the opening quote); returns the
    decoded string and the input following the closing quote. -/
def parseStringBody : Nat → List Char → List Char → Option (String × List Char)
  | 0, _, _ => none
  | _, [], _ => none
  | fuel + 1, c :: rest, acc =>
    if c.toNat = 0x22 then some (String.mk acc.reverse, rest)
    else if c = '\\' then
      match rest with
      | [] => none
      | e :: rest2 =>
        if e.toNat = 0x22 then parseStringBody fuel rest2 (Char.ofNat 0x22 :: acc)
        else if e = '\\' then parseStringBody fuel rest2 ('\\' :: acc)
        else if e = '/' then parseStringBody fuel rest2 ('/' :: acc)
        else if e = 'b' then parseStringBody fuel rest2 ('\x08' :: acc)
        else if e = 'f' then parseStringBody fuel rest2 ('\x0c' :: acc)
        else if e = 'n' then parseStringBody fuel rest2 ('\n' :: acc)
        else if e = 'r' then parseStringBody fuel rest2 ('\r' :: acc)
        else if e = 't' then parseStringBody fuel rest2 ('\t' :: acc)
        else if e = 'u' then
          match rest2 with
          | h1 :: h2 :: h3 :: h4 :: rest3 =>
            match hexDigitVal h1, hexDigitVal h2, hexDigitVal h3, hexDigitVal h4 with
            | some a, some b, some c2, some d =>
              let n := ((a * 16 + b) * 16 + c2) * 16 + d
              if 0xd800 ≤ n ∧ n ≤ 0xdfff then
                parseStringBody fuel rest3 (Char.ofNat 0xfffd :: acc)
              else
                parseStringBody fuel rest3 (Char.ofNat n :: acc)
            | _, _, _, _ => none
          | _ => none
        else none
    else if c.toNat < 0x20 then none
    else parseStringBody fuel rest (c :: acc)

/-- Integer part of a JSON number: a single `0`, or a nonzero digit
    followed by digits. -/
def parseIntPart : List Char → Option (List Char × List Char)
  | [] => none
  | c :: rest =>
    if c = '0' then some ([c], rest)
    else if c.isDigit then
      let ds := rest.takeWhile (·.isDigit)
      some (c :: ds, rest.drop ds.length)
    else none

/-- Optional fraction part of a JSON number. -/
def parseFracPart (l : List Char) : Option (List Char × List Char) :=
  match l with
  | '.' :: rest =>
    let ds := rest.takeWhile (·.isDigit)
    if ds.isEmpty then none else some ('.' :: ds, rest.drop ds.length)
  | _ => some ([], l)

/-- Optional exponent part of a JSON number. -/
def parseExpPart (l : List Char) : Option (List Char × List Char) :=
  match l with
  | c :: rest =>
    if c = 'e' ∨ c = 'E' then
      let (sgn, r1) :=
        match rest with
        | s :: r => if s = '+' ∨ s = '-' then ([s], r) else (([] : List Char), rest)
        | [] => ([], [])
      let ds := r1.takeWhile (·.isDigit)
      if ds.isEmpty then none else some (c :: (sgn ++ ds), r1.drop ds.length)
    else some ([], l)
  | [] => some ([], [])

/-- A JSON number literal, returned as its raw text. -/
def parseNumber (l : List Char) : Option (String × List Char) :=
  let (neg, l1) :=
    match l with
    | c :: rest => if c = '-' then ([c], rest) else (([] : List Char), l)
    | [] => ([], [])
  match parseIntPart l1 with
  | none => none
  | some (ip, l2) =>
    match parseFracPart l2 with
    | none => none
    | some (fp, l3) =>
      match parseExpPart l3 with
      | none => none
      | some (ep, l4) => some (String.mk (neg ++ ip ++ fp ++ ep), l4)

/-- Element loop of a JSON array (after the opening bracket), generic in
    the value parser `pv`. -/
def jsonArrLoop (pv : List Char → Option (Json × List Char)) :
    Nat → List Char → List Json → Option (List Json × List Char)
  | 0, _, _ => none
  | fuel + 1, l, acc =>
    match pv l with
    | none => none
    | some (v, r1) =>
      match jsonSkipWs r1 with
      | ',' :: r2 => jsonArrLoop pv fuel r2 (v :: acc)
      | ']' :: r2 => some ((v :: acc).reverse, r2)
      | _ => none

/-- Field loop of a JSON object (after the opening brace), generic in the
    value parser `pv`. -/
def jsonObjLoop (pv : List Char → Option (Json × List Char)) :
    Nat → List Char → List (String × Json) → Option (List (String × Json) × List Char)
  | 0, _, _ => none
  | fuel + 1, l, acc =>
    match jsonSkipWs l with
    | c :: r1 =>
      if c.toNat = 0x22 then
        match parseStringBody (r1.length + 1) r1 [] with
        | none => none
        | some (k, r2) =>
          match jsonSkipWs r2 with
          | ':' :: r3 =>
            match pv r3 with
            | none => none
            | some (v, r4) =>
              match jsonSkipWs r4 with
              | ',' :: r5 => jsonObjLoop pv fuel r5 ((k, v) :: acc)
              | c2 :: r5 =>
                if c2.toNat = 0x7d then some (((k, v) :: acc).reverse, r5)
                else none
              | [] => none
          | _ => none
      else none
    | [] => none

/-- Recursive-descent JSON value parser (model of `JSON.parse` applied to
    one value; the fuel is an upper bound on nesting depth, always ample
    at the call sites). -/
def parseJsonValue : Nat → List Char → Option (Json × List Char)
  | 0, _ => none
  | fuel + 1, l =>
    match jsonSkipWs l with
    | [] => none
    | c :: rest =>
      if c.toNat = 0x22 then
        match parseStringBody (rest.length + 1) rest [] with
        | none => none
        | some (s, r) => some (Json.str s, r)
      else if c = 't' then
        if ['r', 'u', 'e'].isPrefixOf rest then some (Json.bool true, rest.drop 3) else none
      else if c = 'f' then
        if ['a', 'l', 's', 'e'].isPrefixOf rest then some (Json.bool false, rest.drop 4) else none
      else if c = 'n' then
        if ['u', 'l', 'l'].isPrefixOf rest then some (Json.null, rest.drop 3) else none
      else if c = '[' then
        match jsonSkipWs rest with
        | ']' :: r => some (Json.arr [], r)
        | _ =>
          match jsonArrLoop (parseJsonValue fuel) (rest.length + 1) rest [] with
          | none => none
          | some (vs, r) => some (Json.arr vs, r)
      else if c.toNat = 0x7b then
        match jsonSkipWs rest with
        | c2 :: r =>
          if c2.toNat = 0x7d then some (Json.obj [], r)
          else
            match jsonObjLoop (parseJsonValue fuel) (rest.length + 1) rest [] with
            | none => none
            | some (fs, r2) => some (Json.obj fs, r2)
        | [] => none
      else if c = '-' ∨ c.isDigit then
        match parseNumber (c :: rest) with
        | none => none
        | some (s, r) => some (Json.num s, r)
      else none

/-- Model of `JSON.parse`: `none` means the source call throws. -/
def jsonParse (s : String) : Option Json :=
  match parseJsonValue (s.toList.length + 1) s.toList with
  | none => none
  | some (v, rest) => if jsonSkipWs rest = [] then some v else none

/-- Scanner for the code-fence stripping
    `text.replace(/```json\n?|\n?```/g, "")` used before `JSON.parse`:
    at each position the first alternative (backtick fence with `json`
    tag and optional newline) is tried, then the second (optional newline
    and bare fence). -/
def stripFencesGo : Nat → List Char → List Char
  | 0, l => l
  | _ + 1, [] => []
  | fuel + 1, c :: rest =>
    if ['`', '`', '`', 'j', 's', 'o', 'n'].isPrefixOf (c :: rest) then
      match (c :: rest).drop 7 with
      | '\n' :: r2 => stripFencesGo fuel r2
      | r2 => stripFencesGo fuel r2
    else if c = '\n' && ['`', '`', '`'].isPrefixOf rest then
      stripFencesGo fuel (rest.drop 3)
    else if ['`', '`', '`'].isPrefixOf (c :: rest) then
      stripFencesGo fuel ((c :: rest).drop 3)
    else c :: stripFencesGo fuel rest

/-- JS `text.replace(/```json\n?|\n?```/g, "")` on a string. -/
def stripFencesStr (s : String) : String :=
  String.mk (stripFencesGo (s.toList.length + 1) s.toList)

/-
  Shared result shape of both summarization paths
  (`SummaryResult` in src/lib/summarizer.ts and `GeminiSummaryResult`
  in the service wrapper).  The summary and keyPoints fields are stored
  as `Json` values because on the AI path they are taken from parsed
  model output without further coercion; the extractive path always
  stores `Json.str` / an array of `Json.str`.
-/

structure SummaryResult where
  summary : Json
  keyPoints : Json
  wordCount : Nat
  originalLength : Nat
deriving Repr

/-- Result shape `GeminiTranslationResult` of the translation paths. -/
structure TranslationResult where
  originalText : String
  translatedText : String
  language : String
deriving Repr

namespace Summarizer

open JsStr

/-- JS regex class `\w` (no unicode flag): ASCII letters, digits, and
    underscore, identified by code point. -/
def isWordChar (c : Char) : Bool :=
  let n := c.toNat
  (decide (48 ≤ n) && decide (n ≤ 57)) || (decide (97 ≤ n) && decide (n ≤ 122)) ||
  (decide (65 ≤ n) && decide (n ≤ 90)) || n == 95

/-- Characters kept by the cleaning filter
    `replace(/[^\w\s.,!?;:()]/g, "")`. -/
def allowedInClean (c : Char) : Bool :=
  isWordChar c || isJsWs c || ['.', ',', '!', '?', ';', ':', '(', ')'].contains c

/-- The Text Cleaner of `generateStaticSummary`: collapse whitespace
    runs, drop disallowed characters, trim. -/
def cleanList (content : String) : List Char :=
  jsTrim ((collapseWs content.toList).filter allowedInClean)

/-- Cleaned content as a string. -/
def cleanContent (content : String) : String :=
  String.mk (cleanList content)

/-- Sentence-terminator class `[.!?]`. -/
def isSentEnd (c : Char) : Bool :=
  c = '.' || c = '!' || c = '?'

/-- Sentence candidates: split the cleaned content on terminator runs,
    trim, and keep only candidates longer than 10 characters. -/
def sentCandidates (content : String) : List (List Char) :=
  ((splitRuns isSentEnd (cleanList content)).map jsTrim).filter
    (fun s => utf16Len s > 10)

/-- The fixed importance vocabulary of the scoring heuristic. -/
def importantWords : List String :=
  ["important", "significant", "key", "main", "primary", "essential",
   "crucial", "major", "fundamental", "critical", "vital", "necessary",
   "therefore", "however", "moreover", "furthermore", "consequently",
   "result", "conclusion", "summary", "findings", "discovered",
   "research", "study", "analysis", "data", "evidence", "shows",
   "reveals", "indicates", "suggests", "demonstrates", "proves"]

/-- Bracket characters penalised by the scoring heuristic
    (`[()[\]\x7b\x7d]`). -/
def isBracketChar (c : Char) : Bool :=
  ['(', ')', '[', ']', Char.ofNat 0x7b, Char.ofNat 0x7d].contains c

/-- A scored sentence candidate. -/
structure Scored where
  sentence : List Char
  score : Int
  index : Nat
deriving Repr

/-- Additive importance score of one candidate (`n` is the number of
    candidates; the positional comparisons `index < n*0.2` and
    `index > n*0.8` are modelled as `5*index < n` and `5*index > 4*n`). -/
def scoreSentence (n : Nat) (idx : Nat) (s : List Char) : Int :=
  let s1 : Int := if 5 * idx < n then 3 else 0
  let s2 : Int := if 5 * idx > 4 * n then 2 else 0
  let w := (splitRuns isJsWs s).length
  let s3 : Int := if 8 ≤ w ∧ w ≤ 25 then 2 else 0
  let lower := jsLower s
  let s4 : Int := (importantWords.filter (fun v => containsSub v.toList lower)).length
  let s5 : Int := if countRuns Char.isDigit s > 3 then -1 else 0
  let s6 : Int := if (s.filter isBracketChar).length > 2 then -1 else 0
  s1 + s2 + s3 + s4 + s5 + s6

/-- All candidates with their scores and original positions. -/
def scoredSentences (content : String) : List Scored :=
  let sents := sentCandidates content
  sents.enum.map (fun p => ⟨p.2, scoreSentence sents.length p.1 p.2, p.1⟩)

/-- Top `min(5, ceil(0.3*n))` candidates by score (stable descending
    sort), restored to original order (stable ascending sort by index). -/
def topSentences (content : String) : List Scored :=
  let sorted := stableSort (fun y x => decide (x.score ≤ y.score)) (scoredSentences content)
  let k := min 5 ((3 * (sentCandidates content).length + 9) / 10)
  stableSort (fun y x => decide (y.index ≤ x.index)) (sorted.take k)

/-- JS `replace(/\.\s*\./g, ".")`: collapse a period, optional
    whitespace, period into a single period (scanning resumes after each
    replacement). -/
def collapseDoublePeriodsGo : Nat → List Char → List Char
  | 0, l => l
  | _ + 1, [] => []
  | fuel + 1, c :: rest =>
    if c = '.' then
      match rest.drop (rest.takeWhile isJsWs).length with
      | '.' :: r2 => '.' :: collapseDoublePeriodsGo fuel r2
      | _ => c :: collapseDoublePeriodsGo fuel rest
    else c :: collapseDoublePeriodsGo fuel rest

/-- Collapse double periods. -/
def collapseDoublePeriods (l : List Char) : List Char :=
  collapseDoublePeriodsGo (l.length + 1) l

/-- The assembled summary text: selected sentences joined by `". "`,
    double periods collapsed, and a final period appended when the last
    selected sentence does not already end in one. -/
def summaryText (content : String) : List Char :=
  let tops := topSentences content
  let joined := collapseDoublePeriods (joinSep ". ".toList (tops.map (·.sentence)))
  joined ++
    (match tops.getLast? with
     | some last => if last.sentence.getLast? = some '.' then [] else ['.']
     | none => [])

/-- Bullet glyph class `[•·\-\*]` of the bulleted-item regex. -/
def isBulletChar (c : Char) : Bool :=
  ['•', '·', '-', '*'].contains c

/-- Backtracking for `\s*([^X\n]+)`: starting from the maximal
    whitespace run, give characters back until the capture class can
    match at least one character.  Returns the capture and the input
    after it. -/
def classTailTry (inClass : Char → Bool) (rest : List Char) : Nat → Option (List Char × List Char)
  | 0 =>
    let cap := rest.takeWhile inClass
    if cap.isEmpty then none else some (cap, rest.drop cap.length)
  | m + 1 =>
    let cap := (rest.drop (m + 1)).takeWhile inClass
    if cap.isEmpty then classTailTry inClass rest m
    else some (cap, (rest.drop (m + 1)).drop cap.length)

/-- Match `\s*([^X\n]+)` at the start of `rest`. -/
def classTailMatch (inClass : Char → Bool) (rest : List Char) : Option (List Char × List Char) :=
  classTailTry inClass rest (rest.takeWhile isJsWs).length

/-- Capture class `[^•·\-\*\n]` of the bulleted-item regex. -/
def bulletCapClass (c : Char) : Bool :=
  !isBulletChar c && c ≠ '\n'

/-- Capture class `[^\d\n]` of the numbered-item regex. -/
def numberedCapClass (c : Char) : Bool :=
  !c.isDigit && c ≠ '\n'

/-- Global scan of `/[•·\-\*]\s*([^•·\-\*\n]+)/g`: captured groups of the
    successive non-overlapping matches. -/
def bulletScanGo : Nat → List Char → List (List Char)
  | 0, _ => []
  | _ + 1, [] => []
  | fuel + 1, c :: rest =>
    if isBulletChar c then
      match classTailMatch bulletCapClass rest with
      | some (cap, rem) => cap :: bulletScanGo fuel rem
      | none => bulletScanGo fuel rest
    else bulletScanGo fuel rest

/-- Captured groups of the bulleted-item regex over `l`. -/
def bulletMatches (l : List Char) : List (List Char) :=
  bulletScanGo (l.length + 1) l

/-- Global scan of `/\d+[\.\)]\s*([^\d\n]+)/g`: captured groups of the
    successive non-overlapping matches. -/
def numberedScanGo : Nat → List Char → List (List Char)
  | 0, _ => []
  | _ + 1, [] => []
  | fuel + 1, c :: rest =>
    if c.isDigit then
      let ds := rest.takeWhile (·.isDigit)
      match rest.drop ds.length with
      | sep :: r2 =>
        if sep = '.' ∨ sep = ')' then
          match classTailMatch numberedCapClass r2 with
          | some (cap, rem) => cap :: numberedScanGo fuel rem
          | none => numberedScanGo fuel rest
        else numberedScanGo fuel rest
      | [] => numberedScanGo fuel rest
    else numberedScanGo fuel rest

/-- Captured groups of the numbered-item regex over `l`. -/
def numberedMatches (l : List Char) : List (List Char) :=
  numberedScanGo (l.length + 1) l

/-- Trim the captured items and keep those of length strictly between
    10 and 150. -/
def lenFilter (pts : List (List Char)) : List (List Char) :=
  (pts.map jsTrim).filter (fun p => 10 < utf16Len p ∧ utf16Len p < 150)

/-- Acceptable bulleted key points of the content. -/
def bulletItems (content : List Char) : List (List Char) :=
  lenFilter (bulletMatches content)

/-- Acceptable numbered key points of the content. -/
def numberedItems (content : List Char) : List (List Char) :=
  lenFilter (numberedMatches content)

/-- Keyword set of the key-point sentence fallback. -/
def keywordList : List String :=
  ["key", "important", "main", "significant", "essential", "crucial"]

/-- Does the lower-cased sentence contain one of the keywords? -/
def hasKeyword (s : List Char) : Bool :=
  keywordList.any (fun w => containsSub w.toList (jsLower s))

/-- Key-point extraction: bulleted and numbered items; otherwise up to 3
    keyword sentences; otherwise the first 3 sentences; capped at 5. -/
def extractKeyPoints (content : List Char) (sentences : List (List Char)) : List (List Char) :=
  let pts := bulletItems content ++ numberedItems content
  let pts2 := if pts.isEmpty then (sentences.filter hasKeyword).take 3 else pts
  let pts3 := if pts2.isEmpty then sentences.take 3 else pts2
  pts3.take 5

/-- The extractive summarizer `generateStaticSummary`. -/
def generateStaticSummary (content : String) : SummaryResult :=
  let cc := cleanList content
  let s := summaryText content
  { summary := Json.str (if s.isEmpty then
        "Unable to generate summary from the provided content."
      else String.mk s),
    keyPoints := Json.arr ((extractKeyPoints cc (sentCandidates content)).map
      (fun p => Json.str (String.mk p))),
    wordCount := (splitRuns isJsWs cc).length,
    originalLength := utf16Len cc }

end Summarizer

namespace UrduUtils

open JsStr

/-- Is the character in one of the Arabic/Urdu script ranges
    `U+0600-06FF, 0750-077F, 08A0-08FF, FB50-FDFF, FE70-FEFF`? -/
def isUrduChar (c : Char) : Bool :=
  let n := c.toNat
  (decide (0x600 ≤ n) && decide (n ≤ 0x6ff)) ||
  (decide (0x750 ≤ n) && decide (n ≤ 0x77f)) ||
  (decide (0x8a0 ≤ n) && decide (n ≤ 0x8ff)) ||
  (decide (0xfb50 ≤ n) && decide (n ≤ 0xfdff)) ||
  (decide (0xfe70 ≤ n) && decide (n ≤ 0xfeff))

/-- Does the text contain a character of the Urdu/Arabic script? -/
def containsUrduScript (text : String) : Bool :=
  text.toList.any isUrduChar

/-- Quote character of the surrounding-quote stripping class: the source
    class consists of three ASCII straight double quotes (verified
    byte-for-byte), so only U+0022 is stripped. -/
def isDQuoteChar (c : Char) : Bool :=
  c.toNat = 0x22

/-- Model of the surrounding-quote replace of `normalizeUrduText`: drop
    one leading quote (with any whitespace before it) and one trailing
    quote (with any whitespace after it); without a quote the
    corresponding end is left unchanged. -/
def quoteStrip (l : List Char) : List Char :=
  let l1 :=
    match l.dropWhile isJsWs with
    | c :: rest => if isDQuoteChar c then rest else l
    | [] => l
  match l1.reverse.dropWhile isJsWs with
  | c :: rest => if isDQuoteChar c then rest.reverse else l1
  | [] => l1

/-- The translator preambles removed by the labelled-prefix replace of
    `normalizeUrduText`, in alternation order (the case-insensitive flag
    is inert on these all-Urdu prefixes). -/
def urduLabelStrings : List String :=
  ["اردو ترجمہ:", "ترجمہ:", "یہ اردو ترجمہ ہے:"]

/-- Remove a leading translator preamble, if any. -/
def stripUrduLabels (l : List Char) : List Char :=
  match urduLabelStrings.find? (fun p => p.toList.isPrefixOf l) with
  | some p => l.drop p.toList.length
  | none => l

/-- The `normalizeUrduText` cleanup: trim, collapse whitespace, strip
    surrounding quotes and translator preambles, trim again. -/
def normalizeUrduText (text : String) : String :=
  String.mk (jsTrim (stripUrduLabels (quoteStrip (collapseWs (jsTrim text.toList)))))

/-- The `extractUrduText` line filter: keep the lines containing Urdu
    script (joined by newlines and trimmed); with no such line the text
    is returned unchanged. -/
def extractUrduText (text : String) : String :=
  let urduLines := (splitCh (Char.ofNat 10) text.toList).filter (fun ln => ln.any isUrduChar)
  if urduLines.isEmpty then text
  else String.mk (jsTrim (joinSep [Char.ofNat 10] urduLines))

/-- Issue text pushed when the translation has no Urdu script. -/
def noScriptMsg : String := "Translation does not contain Urdu script"

/-- Issue text pushed when the translation is much shorter than the
    original. -/
def tooShortMsg : String := "Translation seems too short"

/-- Issue text pushed when the translation keeps too many Latin words. -/
def tooEnglishMsg : String := "Translation contains too many English words"

/-- Validation outcome of `validateUrduTranslation`. -/
structure ValidationOutcome where
  isValid : Bool
  issues : List String
deriving Repr

/-- One Latin letter, the class `[a-zA-Z]`. -/
def isLatinLetter (c : Char) : Bool :=
  (decide (Char.ofNat 97 ≤ c) && decide (c ≤ Char.ofNat 122)) ||
  (decide (Char.ofNat 65 ≤ c) && decide (c ≤ Char.ofNat 90))

/-- The Translation Quality Validator: accumulates the script, length
    and language-mixing issues.  The length comparisons
    `len(t) < 0.3*len(o)` and `count > 0.7*words(o)` are modelled by the
    exact rational forms `10*len(t) < 3*len(o)` and
    `10*count > 7*words(o)`; `words(o)` splits on the literal space
    character, as the source does. -/
def validateUrduTranslation (originalText translatedText : String) : ValidationOutcome :=
  let issues :=
    (if !containsUrduScript translatedText then [noScriptMsg] else []) ++
    (if 10 * utf16Len translatedText.toList < 3 * utf16Len originalText.toList then
      [tooShortMsg] else []) ++
    (if 10 * countRuns isLatinLetter translatedText.toList >
        7 * (splitCh (Char.ofNat 32) originalText.toList).length then
      [tooEnglishMsg] else [])
  { isValid := issues.isEmpty, issues := issues }

/-- The literal pattern of the spacing fix in
    `postProcessUrduTranslation`: the source regex lacks class brackets,
    so its groups match the three characters U+0600, hyphen, U+06FF
    literally. -/
def urduAdjPattern : List Char := [Char.ofNat 0x600, Char.ofNat 0x2d, Char.ofNat 0x6ff]

/-- The adjacent-spacing replace of `postProcessUrduTranslation`: join
    two literal pattern groups separated by whitespace. -/
def adjFixGo : Nat → List Char → List Char
  | 0, l => l
  | _ + 1, [] => []
  | fuel + 1, c :: rest =>
    if urduAdjPattern.isPrefixOf (c :: rest) then
      let after := (c :: rest).drop 3
      let ws := after.takeWhile isJsWs
      if ws.isEmpty then c :: adjFixGo fuel rest
      else if urduAdjPattern.isPrefixOf (after.drop ws.length) then
        urduAdjPattern ++ urduAdjPattern ++ adjFixGo fuel ((after.drop ws.length).drop 3)
      else c :: adjFixGo fuel rest
    else c :: adjFixGo fuel rest

/-- Urdu sentence punctuation of the spacing normalization (Urdu full
    stop U+06D4, Urdu question mark U+061F, exclamation mark). -/
def isUrduPunct (c : Char) : Bool :=
  c.toNat = 0x6d4 || c.toNat = 0x61f || c = Char.ofNat 0x21

/-- The punctuation-spacing replace of `postProcessUrduTranslation`:
    exactly one space after sentence punctuation when a non-space
    character follows (scanning resumes after the consumed following
    character). -/
def punctSpacingGo : Nat → List Char → List Char
  | 0, l => l
  | _ + 1, [] => []
  | fuel + 1, c :: rest =>
    if isUrduPunct c then
      match rest.drop (rest.takeWhile isJsWs).length with
      | d :: r2 => c :: Char.ofNat 32 :: d :: punctSpacingGo fuel r2
      | [] => c :: rest
    else c :: punctSpacingGo fuel rest

/-- The `postProcessUrduTranslation` pipeline: normalize, apply the
    adjacent-spacing fix, normalize punctuation spacing. -/
def postProcessUrduTranslation (text : String) : String :=
  let processed := (normalizeUrduText text).toList
  let p2 := adjFixGo (processed.length + 1) processed
  String.mk (punctSpacingGo (p2.length + 1) p2)

end UrduUtils

namespace BlogTranslator

open JsStr

/-- The static English-to-Urdu dictionary of the standalone translator
    (own properties of the `englishToUrdu` object literal, in source
    order; the object has no duplicated keys). -/
def englishToUrdu : List (String × String) := [
  ("the", "یہ"),
  ("and", "اور"),
  ("is", "ہے"),
  ("in", "میں"),
  ("to", "کو"),
  ("of", "کا"),
  ("a", "ایک"),
  ("that", "یہ"),
  ("it", "یہ"),
  ("with", "کے ساتھ"),
  ("for", "کے لیے"),
  ("as", "جیسے"),
  ("was", "تھا"),
  ("on", "پر"),
  ("are", "ہیں"),
  ("you", "آپ"),
  ("this", "یہ"),
  ("be", "ہونا"),
  ("at", "پر"),
  ("by", "کے ذریعے"),
  ("not", "نہیں"),
  ("or", "یا"),
  ("have", "ہے"),
  ("from", "سے"),
  ("they", "وہ"),
  ("we", "ہم"),
  ("but", "لیکن"),
  ("can", "کر سکتے ہیں"),
  ("out", "باہر"),
  ("other", "دوسرے"),
  ("were", "تھے"),
  ("all", "تمام"),
  ("there", "وہاں"),
  ("when", "جب"),
  ("up", "اوپر"),
  ("use", "استعمال"),
  ("your", "آپ کا"),
  ("how", "کیسے"),
  ("our", "ہمارا"),
  ("if", "اگر"),
  ("no", "نہیں"),
  ("had", "تھا"),
  ("what", "کیا"),
  ("so", "تو"),
  ("about", "کے بارے میں"),
  ("time", "وقت"),
  ("very", "بہت"),
  ("would", "گا"),
  ("has", "ہے"),
  ("more", "زیادہ"),
  ("go", "جانا"),
  ("see", "دیکھنا"),
  ("make", "بنانا"),
  ("get", "لینا"),
  ("come", "آنا"),
  ("know", "جاننا"),
  ("work", "کام"),
  ("people", "لوگ"),
  ("day", "دن"),
  ("way", "طریقہ"),
  ("good", "اچھا"),
  ("new", "نیا"),
  ("first", "پہلا"),
  ("great", "عظیم"),
  ("technology", "ٹیکنالوجی"),
  ("business", "کاروبار"),
  ("company", "کمپنی"),
  ("world", "دنیا"),
  ("life", "زندگی"),
  ("system", "نظام"),
  ("development", "ترقی"),
  ("software", "سافٹ ویئر"),
  ("data", "ڈیٹا"),
  ("information", "معلومات"),
  ("service", "خدمت"),
  ("management", "انتظام"),
  ("market", "بازار"),
  ("user", "صارف"),
  ("solution", "حل"),
  ("process", "عمل"),
  ("project", "منصوبہ"),
  ("application", "اپلیکیشن"),
  ("digital", "ڈیجیٹل"),
  ("online", "آن لائن"),
  ("internet", "انٹرنیٹ"),
  ("website", "ویب سائٹ"),
  ("computer", "کمپیوٹر"),
  ("mobile", "موبائل"),
  ("platform", "پلیٹ فارم"),
  ("network", "نیٹ ورک"),
  ("security", "سیکیورٹی"),
  ("future", "مستقبل"),
  ("innovation", "جدت"),
  ("artificial", "مصنوعی"),
  ("intelligence", "ذہانت"),
  ("machine", "مشین"),
  ("learning", "سیکھنا"),
  ("algorithm", "الگورتھم"),
  ("programming", "پروگرامنگ"),
  ("code", "کوڈ"),
  ("database", "ڈیٹابیس"),
  ("analysis", "تجزیہ"),
  ("design", "ڈیزائن"),
  ("content", "مواد"),
  ("media", "میڈیا"),
  ("communication", "رابطہ"),
  ("experience", "تجربہ"),
  ("performance", "کارکردگی"),
  ("quality", "معیار"),
  ("support", "سپورٹ"),
  ("product", "پروڈکٹ"),
  ("customer", "کسٹمر"),
  ("education", "تعلیم"),
  ("research", "تحقیق"),
  ("science", "سائنس"),
  ("health", "صحت"),
  ("medical", "طبی"),
  ("economic", "اقتصادی"),
  ("financial", "مالی"),
  ("political", "سیاسی"),
  ("social", "سماجی"),
  ("environmental", "ماحولیاتی"),
  ("global", "عالمی"),
  ("international", "بین الاقوامی"),
  ("national", "قومی"),
  ("local", "مقامی"),
  ("community", "کمیونٹی"),
  ("organization", "تنظیم"),
  ("government", "حکومت"),
  ("public", "عوامی"),
  ("private", "نجی"),
  ("personal", "ذاتی"),
  ("professional", "پیشہ ورانہ"),
  ("industry", "صنعت"),
  ("energy", "توانائی"),
  ("environment", "ماحول"),
  ("climate", "آب و ہوا"),
  ("change", "تبدیلی"),
  ("growth", "ترقی"),
  ("impact", "اثر"),
  ("challenge", "چیلنج"),
  ("opportunity", "موقع"),
  ("strategy", "حکمت عملی"),
  ("planning", "منصوبہ بندی"),
  ("implementation", "نافذ کرنا")
]

/-- The punctuation class stripped from each token before dictionary
    lookup: period, comma, bangs and question marks, semicolon, colon,
    parentheses, square and curly brackets, straight single and double
    quotes. -/
def punctClass (c : Char) : Bool :=
  ['.', ',', '!', '?', ';', ':', '(', ')', '[', ']',
   Char.ofNat 0x7b, Char.ofNat 0x7d, Char.ofNat 0x27, Char.ofNat 0x22].contains c

/-- Strip the punctuation class from a token. -/
def stripPunct (w : List Char) : List Char :=
  w.filter (fun c => !punctClass c)

/-- The Dictionary Translator `translateToUrduStatic`: lower-case, split
    on whitespace, strip punctuation, replace tokens found in the table
    (JS truthiness guards the hit), keep the remaining tokens. -/
def translateToUrduStatic (text : String) : String :=
  let words := splitRuns isJsWs (jsLower text.toList)
  let translatedWords := words.map (fun w =>
    match englishToUrdu.lookup (String.mk (stripPunct w)) with
    | some v => if v ≠ "" then v.toList else w
    | none => w)
  String.mk (joinSep [Char.ofNat 32] translatedWords)

end BlogTranslator

namespace GeminiService

open JsStr UrduUtils

/-
  The service methods are deterministic apart from the calls into the
  external AI collaborator.  Each collaborator call is modelled by an
  `Option String` argument: `some raw` is the raw model text returned by
  a successful call, `none` is a call that raises.  The `available`
  argument models `isAvailable()` (a configured API key and model).
  Thrown errors are modelled with `Except String`.
-/

/-- The inline dictionary of the orchestrator-internal
    `fallbackTranslation` (own properties of the `basicDict` object
    literal, in source order; no duplicated keys). -/
def basicDict : List (String × String) := [
  ("the", "یہ"),
  ("and", "اور"),
  ("is", "ہے"),
  ("in", "میں"),
  ("to", "کو"),
  ("of", "کا"),
  ("a", "ایک"),
  ("that", "یہ"),
  ("it", "یہ"),
  ("with", "کے ساتھ"),
  ("for", "کے لیے"),
  ("as", "جیسے"),
  ("was", "تھا"),
  ("on", "پر"),
  ("are", "ہیں"),
  ("you", "آپ"),
  ("this", "یہ"),
  ("be", "ہونا"),
  ("at", "پر"),
  ("by", "کے ذریعے"),
  ("not", "نہیں"),
  ("or", "یا"),
  ("have", "ہے"),
  ("from", "سے"),
  ("they", "وہ"),
  ("we", "ہم"),
  ("but", "لیکن"),
  ("can", "کر سکتے ہیں"),
  ("out", "باہر"),
  ("other", "دوسرے"),
  ("were", "تھے"),
  ("all", "تمام"),
  ("there", "وہاں"),
  ("when", "جب"),
  ("up", "اوپر"),
  ("use", "استعمال"),
  ("your", "آپ کا"),
  ("how", "کیسے"),
  ("our", "ہمارا"),
  ("if", "اگر"),
  ("no", "نہیں"),
  ("had", "تھا"),
  ("what", "کیا"),
  ("so", "تو"),
  ("about", "کے بارے میں"),
  ("blog", "بلاگ"),
  ("content", "مواد"),
  ("article", "مضمون"),
  ("summary", "خلاصہ"),
  ("information", "معلومات"),
  ("important", "اہم"),
  ("main", "بنیادی"),
  ("key", "کلیدی"),
  ("point", "نکتہ"),
  ("technology", "ٹیکنالوجی"),
  ("development", "ترقی")
]

/-- The `fallbackTranslation` dictionary pass: same tokenization and
    punctuation stripping as the standalone translator, looked up in the
    inline `basicDict` (`basicDict[w] || w`). -/
def fallbackTranslation (text : String) : String :=
  let words := splitRuns isJsWs (jsLower text.toList)
  String.mk (joinSep [Char.ofNat 32] (words.map (fun w =>
    match basicDict.lookup (String.mk (BlogTranslator.stripPunct w)) with
    | some v => if v ≠ "" then v.toList else w
    | none => w)))

/-- The `fallbackSummary` extractive method: first five sentence
    candidates of the raw content (split on terminator runs, trimmed,
    longer than 10), joined with a final period; the counters are taken
    from the raw content. -/
def fallbackSummary (content : String) : SummaryResult :=
  let sentences :=
    ((((splitRuns Summarizer.isSentEnd content.toList).map jsTrim).filter
      (fun s => utf16Len s > 10)).take 5)
  { summary := Json.str (String.mk (joinSep ". ".toList sentences ++ ['.'])),
    keyPoints := Json.arr ((sentences.take 3).map (fun s => Json.str (String.mk s))),
    wordCount := (splitRuns isJsWs content.toList).length,
    originalLength := utf16Len content.toList }

/-- Length of the list-item prefix matched by the alternation
    `digits-dot, dash, star, bullet` at the start of a line, if any. -/
def listItemPrefixLen (l : List Char) : Option Nat :=
  match l with
  | [] => none
  | c :: rest =>
    if c.isDigit then
      let ds := rest.takeWhile (·.isDigit)
      match rest.drop ds.length with
      | '.' :: _ => some (1 + ds.length + 1)
      | _ => none
    else if c = '-' ∨ c = '*' ∨ c = '•' then some 1
    else none

/-- Remove the first case-insensitive occurrence of `summary` with an
    optional following colon (non-global replace). -/
def stripSummaryLabelGo : List Char → List Char
  | [] => []
  | c :: rest =>
    if jsLower ((c :: rest).take 7) = "summary".toList then
      match (c :: rest).drop 7 with
      | ':' :: r2 => r2
      | r2 => r2
    else c :: stripSummaryLabelGo rest

/-- The heuristic `extractSummaryFromText`: scan the non-blank lines; a
    line containing `summary` (either capitalization) becomes the
    summary with the label stripped (the last such line wins); other
    lines with a list-item prefix become key points; with no summary
    line, the first three lines joined by spaces. -/
def extractSummaryFromText (text : String) : String × List String :=
  let lines := (splitCh (Char.ofNat 10) text.toList).filter (fun ln => !(jsTrim ln).isEmpty)
  let step := lines.foldl
    (fun (st : List Char × List (List Char)) ln =>
      if containsSub "summary".toList ln || containsSub "Summary".toList ln then
        (jsTrim (stripSummaryLabelGo ln), st.2)
      else
        match listItemPrefixLen ln with
        | some k => (st.1, st.2 ++ [jsTrim (ln.drop k)])
        | none => st)
    (([] : List Char), ([] : List (List Char)))
  let summary :=
    if step.1.isEmpty ∧ ¬lines.isEmpty then joinSep [Char.ofNat 32] (lines.take 3)
    else step.1
  (String.mk summary, step.2.map String.mk)

/-- Global scan of the Urdu-run regex of
    `extractSummaryAndTranslationFromText`: each match runs from an
    Urdu-range character to the end of its line. -/
def urduRunScanGo : Nat → List Char → List (List Char)
  | 0, _ => []
  | _ + 1, [] => []
  | fuel + 1, c :: rest =>
    if isUrduChar c then
      ((c :: rest).takeWhile (fun d => d ≠ Char.ofNat 10)) ::
        urduRunScanGo fuel ((c :: rest).dropWhile (fun d => d ≠ Char.ofNat 10))
    else urduRunScanGo fuel rest

/-- The heuristic `extractSummaryAndTranslationFromText`: the basic
    extraction plus the joined Urdu runs (falling back to the dictionary
    pass over the extracted summary when no Urdu is present). -/
def extractSummaryAndTranslationFromText (text : String) : String × List String × String :=
  let basic := extractSummaryFromText text
  let urduMatch := urduRunScanGo (text.toList.length + 1) text.toList
  let summaryUrdu :=
    if urduMatch.isEmpty then fallbackTranslation basic.1
    else String.mk (joinSep [Char.ofNat 32] urduMatch)
  (basic.1, basic.2, summaryUrdu)

/-- The `cleanUrduTranslation` cleanup: extract Urdu lines; if no Urdu
    script remains, normalize the original text instead; post-process. -/
def cleanUrduTranslation (text : String) : String :=
  let c1 := extractUrduText text
  let c2 := if containsUrduScript c1 then c1 else normalizeUrduText text
  postProcessUrduTranslation c2

/-- Parsed response of the summarize-only path. -/
structure ParsedSummary where
  summary : Json
  keyPoints : Json
deriving Repr

/-- The JSON branch of the Response Parser in `generateSummary`: strip
    code fences, trim, `JSON.parse`, and check that `summary` is truthy
    and `keyPoints` is an array; an `error` models a thrown exception. -/
def tryParseSummaryJson (raw : String) : Except String ParsedSummary :=
  let cleanText := jsTrimStr (stripFencesStr raw)
  match jsonParse cleanText with
  | none => .error "Invalid JSON response"
  | some v =>
    match v.getField "summary", v.getField "keyPoints" with
    | some s, some (Json.arr ks) =>
      if s.jsTruthy then .ok { summary := s, keyPoints := Json.arr ks }
      else .error "Invalid summary response structure"
    | _, _ => .error "Invalid summary response structure"

/-- The full Response Parser of `generateSummary`: the JSON branch with
    the heuristic extraction as the catch handler. -/
def parseSummaryResponse (raw : String) : ParsedSummary :=
  match tryParseSummaryJson raw with
  | .ok r => r
  | .error _ =>
    let e := extractSummaryFromText raw
    { summary := Json.str e.1, keyPoints := Json.arr (e.2.map Json.str) }

/-- The service `generateSummary`: unavailable throws; a raising model
    call falls back to `fallbackSummary`; otherwise the parsed response
    is packaged with counters computed from the input content. -/
def generateSummary (available : Bool) (ai : Option String) (content : String) :
    Except String SummaryResult :=
  if !available then .error "Gemini API is not available. Please check your API key."
  else
    match ai with
    | none => .ok (fallbackSummary content)
    | some text =>
      let parsed := parseSummaryResponse text
      .ok { summary := jsTruthyOr (some parsed.summary) (Json.str "Unable to generate summary"),
            keyPoints := jsTruthyOr (some parsed.keyPoints) (Json.arr []),
            wordCount := (splitRuns isJsWs content.toList).length,
            originalLength := utf16Len content.toList }

/-- The service `translateToUrdu`: unavailable throws; a raising model
    call falls back to the dictionary pass; otherwise the response is
    trimmed, cleaned, validated, and replaced by the dictionary pass
    exactly when the no-script issue was raised. -/
def translateToUrdu (available : Bool) (ai : Option String) (text : String) :
    Except String TranslationResult :=
  if !available then .error "Gemini API is not available. Please check your API key."
  else
    match ai with
    | none =>
      .ok { originalText := text, translatedText := fallbackTranslation text, language := "urdu" }
    | some raw =>
      let t0 := cleanUrduTranslation (jsTrimStr raw)
      let validation := validateUrduTranslation text t0
      let t1 :=
        if !validation.isValid then
          if validation.issues.contains noScriptMsg then fallbackTranslation text else t0
        else t0
      .ok { originalText := text, translatedText := t1, language := "urdu" }

/-- Attempt loop of `translateToUrduWithRetry`: the collaborator outcome
    of attempt `i` is `ai i`; when every attempt raises, the dictionary
    fallback result is returned. -/
def translateToUrduWithRetryGo (available : Bool) (ai : Nat → Option String) (text : String) :
    Nat → Nat → TranslationResult
  | _, 0 =>
    { originalText := text, translatedText := fallbackTranslation text, language := "urdu" }
  | attempt, remaining + 1 =>
    match translateToUrdu available (ai attempt) text with
    | .ok r => r
    | .error _ => translateToUrduWithRetryGo available ai text (attempt + 1) remaining

/-- The service `translateToUrduWithRetry` with the default of two
    attempts; it never throws. -/
def translateToUrduWithRetry (available : Bool) (ai : Nat → Option String) (text : String) :
    TranslationResult :=
  translateToUrduWithRetryGo available ai text 1 2

/-- Parsed response of the combined path: the `summary`, `keyPoints` and
    `summaryUrdu` properties (undefined when absent); the catch handler
    substitutes the heuristic extraction. -/
def combinedParsed (raw : String) : Option Json × Option Json × Option Json :=
  match jsonParse (jsTrimStr (stripFencesStr raw)) with
  | some v => (v.getField "summary", v.getField "keyPoints", v.getField "summaryUrdu")
  | none =>
    let e := extractSummaryAndTranslationFromText raw
    (some (Json.str e.1), some (Json.arr (e.2.1.map Json.str)), some (Json.str e.2.2))

/-- The parsed summary record assembled on the success path of the
    combined call (counters from the input content). -/
def combinedSummary (raw content : String) : SummaryResult :=
  { summary := jsTruthyOr (combinedParsed raw).1 (Json.str "Unable to generate summary"),
    keyPoints := jsTruthyOr (combinedParsed raw).2.1 (Json.arr []),
    wordCount := (splitRuns isJsWs content.toList).length,
    originalLength := utf16Len content.toList }

/-- The `summaryUrdu` property of the combined success path with its
    default applied (`parsedResponse.summaryUrdu || "Unable to
    translate"`), before any string method is called on it. -/
def combinedUrduVal (raw : String) : Json :=
  jsTruthyOr (combinedParsed raw).2.2 (Json.str "Unable to translate")

/-- The validation reference value of the combined success path
    (`parsedResponse.summary || ""`), before any string method is called
    on it. -/
def combinedSummaryVal (raw : String) : Json :=
  jsTruthyOr (combinedParsed raw).1 (Json.str "")

/-- Does the success branch of the combined call throw a `TypeError`
    (and so divert to its catch handler)?  Three cases of the source:
    `JSON.parse` yields `null` and the property access
    `parsedResponse.summary` throws; a truthy non-string `summaryUrdu`
    reaches `text.split` inside `cleanUrduTranslation`; a truthy
    non-string `summary` reaches `originalText.split` inside
    `validateUrduTranslation`.  A parse failure is not an error here:
    the inner catch substitutes the all-string heuristic extraction. -/
def combinedThrows (raw : String) : Bool :=
  (match jsonParse (jsTrimStr (stripFencesStr raw)) with
   | some Json.null => true
   | _ => false) ||
  !(combinedUrduVal raw).isStr || !(combinedSummaryVal raw).isStr

/-- The cleaned translation candidate of the combined success path (the
    `summaryUrdu` string with its default, cleaned); consulted only when
    `combinedThrows` is false, so the value is a string. -/
def combinedUrdu1 (raw : String) : String :=
  cleanUrduTranslation (combinedUrduVal raw).strValue

/-- The validation reference text of the combined success path (the
    parsed summary string with the empty-string default); consulted only
    when `combinedThrows` is false, so the value is a string. -/
def combinedOrigStr (raw : String) : String :=
  (combinedSummaryVal raw).strValue

/-- The translation record assembled on the success path of the
    combined call: the candidate is validated against the parsed
    summary, and the dictionary pass is substituted on the no-script
    issue.  (When `combinedThrows raw` is false the `summary` property
    is a string or falsy, so `strValue` of its defaulted value is the
    exact source value.) -/
def combinedTranslation (raw : String) : TranslationResult :=
  let urdu1 := combinedUrdu1 raw
  let validation := validateUrduTranslation (combinedOrigStr raw) urdu1
  { originalText := (jsTruthyOr (combinedParsed raw).1
      (Json.str "Unable to generate summary")).strValue,
    translatedText :=
      if !validation.isValid then
        if validation.issues.contains noScriptMsg then
          fallbackTranslation (combinedOrigStr raw)
        else urdu1
      else urdu1,
    language := "urdu" }

/-- The catch handler of the combined call (also its `aiC = none`
    failure path): separate `generateSummary` and `translateToUrdu`
    calls.  The source passes `summary.summary` to `translateToUrdu`
    untyped; on a truthy non-string value (a structurally valid parse
    with a non-string `summary`) that call throws a `TypeError` — first
    at `originalText.split` in the validator, then, inside its own catch
    handler, at `text.toLowerCase` in `fallbackTranslation` — which
    propagates to the caller. -/
def separateCalls (available : Bool) (aiS aiT : Option String) (content : String) :
    Except String (SummaryResult × TranslationResult) :=
  match generateSummary available aiS content with
  | .error e => .error e
  | .ok s =>
    match s.summary with
    | Json.str sum =>
      match translateToUrdu available aiT sum with
      | .error e => .error e
      | .ok t => .ok (s, t)
    | _ => .error "TypeError: translateToUrdu applied to a non-string summary"

/-- The service `generateSummaryAndTranslation`: one combined model call
    (`aiC`); on a non-throwing success the parsed summary and the
    cleaned, validated translation; on a raising combined call or a
    `TypeError` in the success branch (`combinedThrows`), the catch
    handler performs the separate calls (`aiS`, `aiT`). -/
def generateSummaryAndTranslation (available : Bool) (aiC aiS aiT : Option String)
    (content : String) : Except String (SummaryResult × TranslationResult) :=
  if !available then .error "Gemini API is not available. Please check your API key."
  else
    match aiC with
    | some raw =>
      if combinedThrows raw then separateCalls available aiS aiT content
      else .ok (combinedSummary raw content, combinedTranslation raw)
    | none => separateCalls available aiS aiT content

end GeminiService

namespace Summarizer

/-- The library entry point `generateSummary` of summarizer.ts: the
    service call with the extractive summarizer as the catch handler. -/
def generateSummary (available : Bool) (ai : Option String) (content : String) : SummaryResult :=
  match GeminiService.generateSummary available ai content with
  | .ok r => r
  | .error _ => generateStaticSummary content

end Summarizer

namespace BlogTranslator

/-- The library entry point `translateToUrdu`: the retrying service call
    whose result string is returned; the source catch handler (the
    static dictionary pass) is unreachable because
    `translateToUrduWithRetry` returns normally on every path. -/
def translateToUrdu (available : Bool) (ai : Nat → Option String) (text : String) : String :=
  (GeminiService.translateToUrduWithRetry available ai text).translatedText

end BlogTranslator

/-
  Helper lemmas shared by the claim theorems.
-/

namespace JsStr

theorem toNat_ofNat_valid (n : Nat) (h : n.isValidChar) : (Char.ofNat n).toNat = n := by
  unfold Char.ofNat
  rw [dif_pos h]
  rfl

theorem jsToLower_idem (c : Char) : jsToLower (jsToLower c) = jsToLower c := by
  unfold jsToLower
  by_cases h : 65 ≤ c.toNat ∧ c.toNat ≤ 90
  · rw [if_pos h]
    have hv : (c.toNat + 32).isValidChar := by
      left
      omega
    rw [if_neg]
    rw [toNat_ofNat_valid _ hv]
    omega
  · rw [if_neg h, if_neg h]

theorem jsLower_idem (l : List Char) : jsLower (jsLower l) = jsLower l := by
  unfold jsLower
  rw [List.map_map]
  exact List.map_congr_left (fun c _ => jsToLower_idem c)

theorem isEmpty_false_of_contains {l : List String} {a : String} (h : l.contains a = true) :
    l.isEmpty = false := by
  cases l with
  | nil => simp at h
  | cons x xs => rfl

end JsStr

open JsStr Summarizer UrduUtils

/-- Claim C2: with an AI collaborator that raises on every call, the
    summarize-only library path still returns the extractive fallback
    result (the service-internal `fallbackSummary` when the service is
    available, `generateStaticSummary` when it is not), and the
    translate-only library path returns the dictionary-translator output
    `fallbackTranslation`; both paths return normally. -/
theorem c2_fallback_guarantee :
    ∀ (available : Bool) (content text : String),
      Summarizer.generateSummary available none content =
        (if available then GeminiService.fallbackSummary content
         else Summarizer.generateStaticSummary content) ∧
      BlogTranslator.translateToUrdu available (fun _ => none) text =
        GeminiService.fallbackTranslation text := by
  intro available content text
  cases available <;> exact ⟨rfl, rfl⟩

/-- Claim C5 counterexample: in `"the data is important"` the token
    `data` does not pass through unchanged — it is an entry of the
    `englishToUrdu` table and is replaced. -/
theorem c5_counterexample :
    BlogTranslator.translateToUrduStatic "the data is important" = "یہ ڈیٹا ہے important" ∧
    BlogTranslator.translateToUrduStatic "the data is important" ≠ "یہ data ہے important" ∧
    BlogTranslator.englishToUrdu.lookup "data" = some "ڈیٹا" := by
  refine ⟨rfl, ?_, rfl⟩
  decide

/-- Claim C5 (amended): the dictionary translator lower-cases the text,
    splits on whitespace, strips the punctuation set, replaces table
    hits and keeps the remaining tokens in lower-cased form — so its
    output is invariant under the case of the input — and on
    `"the data is important"` the tokens `the`, `data`, `is` map per the
    table while `important` (absent from the table) passes through in
    lower case. -/
theorem c5_dictionary_translator :
    (∀ text : String,
      BlogTranslator.translateToUrduStatic (String.mk (jsLower text.toList)) =
        BlogTranslator.translateToUrduStatic text) ∧
    BlogTranslator.translateToUrduStatic "The DATA is IMPORTANT" = "یہ ڈیٹا ہے important" ∧
    BlogTranslator.englishToUrdu.lookup "important" = none := by
  refine ⟨?_, rfl, rfl⟩
  intro text
  unfold BlogTranslator.translateToUrduStatic
  simp only [String.toList]
  rw [jsLower_idem]

/-- Claim C9 counterexample: the orchestrator-internal dictionary
    fallback and the standalone dictionary translator are not
    extensionally equal — they disagree on `"market"`. -/
theorem c9_counterexample :
    GeminiService.fallbackTranslation "market" = "market" ∧
    BlogTranslator.translateToUrduStatic "market" = "بازار" ∧
    GeminiService.fallbackTranslation "market" ≠ BlogTranslator.translateToUrduStatic "market" := by
  refine ⟨rfl, rfl, ?_⟩
  decide

/-- Claim C9 (amended): the two dictionary passes share the
    tokenization algorithm but consult different tables, and are
    extensionally different: `market` is translated only by the
    standalone table, `important` only by the inline orchestrator
    table. -/
theorem c9_distinct_tables :
    GeminiService.fallbackTranslation "important" = "اہم" ∧
    BlogTranslator.translateToUrduStatic "important" = "important" ∧
    GeminiService.basicDict.lookup "market" = none ∧
    BlogTranslator.englishToUrdu.lookup "important" = none ∧
    GeminiService.basicDict.lookup "important" = some "اہم" ∧
    BlogTranslator.englishToUrdu.lookup "market" = some "بازار" := by
  exact ⟨rfl, rfl, rfl, rfl, rfl, rfl⟩

/-- Claim C8: the Response Parser never propagates an exception — for
    every raw model text the summarize-only service path returns
    normally — and on the fenced JSON scenario text the code-fence
    stripping followed by JSON parsing yields exactly the summary `X`
    and the key points `a`, `b`. -/
theorem c8_parse_pipeline :
    (∀ raw content : String,
      (GeminiService.generateSummary true (some raw) content).isOk = true) ∧
    GeminiService.parseSummaryResponse
        "```json\n\x7b\"summary\":\"X\",\"keyPoints\":[\"a\",\"b\"]\x7d\n```" =
      { summary := Json.str "X", keyPoints := Json.arr [Json.str "a", Json.str "b"] } := by
  exact ⟨fun _ _ => rfl, rfl⟩

theorem validate_isValid_eq (o t : String) :
    (validateUrduTranslation o t).isValid = (validateUrduTranslation o t).issues.isEmpty := rfl

/-- Claim C4: the validator reports the no-script issue exactly when the
    translated text has no character in the Urdu/Arabic ranges
    (independently of the other checks), and `isValid` holds exactly
    when no issue was raised. -/
theorem c4_validator :
    ∀ original translated : String,
      (noScriptMsg ∈ (validateUrduTranslation original translated).issues ↔
        containsUrduScript translated = false) ∧
      ((validateUrduTranslation original translated).isValid = true ↔
        (validateUrduTranslation original translated).issues = []) := by
  intro o t
  have hne1 : noScriptMsg ≠ tooShortMsg := by decide
  have hne2 : noScriptMsg ≠ tooEnglishMsg := by decide
  constructor
  · unfold validateUrduTranslation
    by_cases h1 : containsUrduScript t <;>
      simp [h1, hne1, hne2]
  · rw [validate_isValid_eq]
    exact List.isEmpty_iff

theorem noscript_collapse (v : ValidationOutcome) (h : v.isValid = v.issues.isEmpty)
    (fb t0 : String) :
    (if !v.isValid then (if v.issues.contains noScriptMsg then fb else t0) else t0) =
    (if v.issues.contains noScriptMsg then fb else t0) := by
  by_cases hc : v.issues.contains noScriptMsg = true
  · have hv : v.isValid = false := h.trans (isEmpty_false_of_contains hc)
    simp [hv, hc]
  · have hc2 : noScriptMsg ∉ v.issues := by simpa using hc
    cases hv : v.isValid <;> simp [hv, hc2]

set_option maxHeartbeats 1000000 in
/-- Claim C3: in the translate-only service path and in the combined
    path, the AI translation is discarded in favour of the dictionary
    pass exactly when the validator issues include the no-script issue;
    with any other issue set the cleaned AI translation is kept.  The
    combined branch governs whenever its success path completes without
    a TypeError (`combinedThrows` false); a TypeError diverts to the
    separate calls, whose substitution policy is the first conjunct. -/
theorem c3_noscript_substitution :
    (∀ text raw : String,
      GeminiService.translateToUrdu true (some raw) text =
        Except.ok
          { originalText := text,
            translatedText :=
              (if ((validateUrduTranslation text
                    (GeminiService.cleanUrduTranslation (jsTrimStr raw))).issues.contains
                    noScriptMsg) then
                GeminiService.fallbackTranslation text
              else GeminiService.cleanUrduTranslation (jsTrimStr raw)),
            language := "urdu" }) ∧
    (∀ (content craw : String) (aiS aiT : Option String),
      GeminiService.combinedThrows craw = false →
      GeminiService.generateSummaryAndTranslation true (some craw) aiS aiT content =
        Except.ok (GeminiService.combinedSummary craw content,
          GeminiService.combinedTranslation craw)) ∧
    (∀ craw : String,
      (GeminiService.combinedTranslation craw).translatedText =
        (if ((validateUrduTranslation (GeminiService.combinedOrigStr craw)
              (GeminiService.combinedUrdu1 craw)).issues.contains noScriptMsg) then
          GeminiService.fallbackTranslation (GeminiService.combinedOrigStr craw)
        else GeminiService.combinedUrdu1 craw)) := by
  refine ⟨?_, ?_, ?_⟩
  · intro text raw
    calc GeminiService.translateToUrdu true (some raw) text
        = Except.ok
            { originalText := text,
              translatedText :=
                (if !(validateUrduTranslation text
                      (GeminiService.cleanUrduTranslation (jsTrimStr raw))).isValid then
                  (if ((validateUrduTranslation text
                        (GeminiService.cleanUrduTranslation (jsTrimStr raw))).issues.contains
                        noScriptMsg) then
                    GeminiService.fallbackTranslation text
                  else GeminiService.cleanUrduTranslation (jsTrimStr raw))
                else GeminiService.cleanUrduTranslation (jsTrimStr raw)),
              language := "urdu" } := rfl
      _ = _ := by
            rw [noscript_collapse
              (validateUrduTranslation text
                (GeminiService.cleanUrduTranslation (jsTrimStr raw)))
              (validate_isValid_eq text
                (GeminiService.cleanUrduTranslation (jsTrimStr raw)))
              (GeminiService.fallbackTranslation text)
              (GeminiService.cleanUrduTranslation (jsTrimStr raw))]
  · intro content craw aiS aiT h
    simp only [GeminiService.generateSummaryAndTranslation, Bool.not_true, Bool.false_eq_true,
      if_false, h]
  · intro craw
    simp only [GeminiService.combinedTranslation]
    rw [noscript_collapse
      (validateUrduTranslation (GeminiService.combinedOrigStr craw)
        (GeminiService.combinedUrdu1 craw))
      (validate_isValid_eq (GeminiService.combinedOrigStr craw)
        (GeminiService.combinedUrdu1 craw))
      (GeminiService.fallbackTranslation (GeminiService.combinedOrigStr craw))
      (GeminiService.combinedUrdu1 craw)]

/-- Claim C3 witness: the combined conjunct applied at a concrete
    non-throwing combined response (valid JSON with string fields),
    discharging the no-TypeError hypothesis by computation. -/
theorem c3_noscript_substitution_witness :
    GeminiService.generateSummaryAndTranslation true
        (some "\x7b\"summary\":\"Hello there\",\"keyPoints\":[],\"summaryUrdu\":\"سلام\"\x7d")
        none none "ab cd" =
      Except.ok
        (GeminiService.combinedSummary
          "\x7b\"summary\":\"Hello there\",\"keyPoints\":[],\"summaryUrdu\":\"سلام\"\x7d"
          "ab cd",
         GeminiService.combinedTranslation
          "\x7b\"summary\":\"Hello there\",\"keyPoints\":[],\"summaryUrdu\":\"سلام\"\x7d") :=
  c3_noscript_substitution.2.1 "ab cd"
    "\x7b\"summary\":\"Hello there\",\"keyPoints\":[],\"summaryUrdu\":\"سلام\"\x7d"
    none none rfl

/-- Claim C1 counterexample: on `"hello@@@ world"` the extractive path
    measures the cleaned content (11 characters) while the orchestrator
    fallback measures the raw content (14 characters), so the two paths
    disagree on `originalLength`. -/
theorem c1_counterexample :
    (Summarizer.generateStaticSummary "hello@@@ world").originalLength = 11 ∧
    GeminiService.generateSummary true none "hello@@@ world" =
      Except.ok (GeminiService.fallbackSummary "hello@@@ world") ∧
    (GeminiService.fallbackSummary "hello@@@ world").originalLength = 14 :=
  ⟨rfl, rfl, rfl⟩

theorem separateCalls_counts (aiS aiT : Option String) (content : String)
    (s : SummaryResult) (t : TranslationResult)
    (h : GeminiService.separateCalls true aiS aiT content = Except.ok (s, t)) :
    s.wordCount = (splitRuns isJsWs content.toList).length ∧
    s.originalLength = utf16Len content.toList := by
  unfold GeminiService.separateCalls at h
  cases aiS with
  | none =>
    simp only [GeminiService.generateSummary, GeminiService.fallbackSummary, Bool.not_true,
      Bool.false_eq_true, if_false] at h
    cases aiT with
    | none =>
      simp only [GeminiService.translateToUrdu, Bool.not_true, Bool.false_eq_true, if_false,
        Except.ok.injEq, Prod.mk.injEq] at h
      obtain ⟨h1, h2⟩ := h
      subst h1
      exact ⟨rfl, rfl⟩
    | some rawT =>
      simp only [GeminiService.translateToUrdu, Bool.not_true, Bool.false_eq_true, if_false,
        Except.ok.injEq, Prod.mk.injEq] at h
      obtain ⟨h1, h2⟩ := h
      subst h1
      exact ⟨rfl, rfl⟩
  | some rawS =>
    simp only [GeminiService.generateSummary, Bool.not_true, Bool.false_eq_true,
      if_false] at h
    cases hj : jsTruthyOr (some (GeminiService.parseSummaryResponse rawS).summary)
        (Json.str "Unable to generate summary") with
    | null => rw [hj] at h; simp at h
    | bool b => rw [hj] at h; simp at h
    | num n => rw [hj] at h; simp at h
    | arr a => rw [hj] at h; simp at h
    | obj o => rw [hj] at h; simp at h
    | str sum =>
      rw [hj] at h
      cases aiT with
      | none =>
        simp only [GeminiService.translateToUrdu, Bool.not_true, Bool.false_eq_true, if_false,
          Except.ok.injEq, Prod.mk.injEq] at h
        obtain ⟨h1, h2⟩ := h
        subst h1
        exact ⟨rfl, rfl⟩
      | some rawT =>
        simp only [GeminiService.translateToUrdu, Bool.not_true, Bool.false_eq_true, if_false,
          Except.ok.injEq, Prod.mk.injEq] at h
        obtain ⟨h1, h2⟩ := h
        subst h1
        exact ⟨rfl, rfl⟩

/-- Claim C1 (amended): every orchestrator path — `generateSummary`
    (with its internal `fallbackSummary`) and the combined path —
    computes `wordCount` and `originalLength` from the raw input
    content, so those paths agree with each other; the extractive
    `generateStaticSummary` instead measures the cleaned content and can
    differ. -/
theorem c1_orchestrator_counts :
    ∀ (available : Bool) (aiC aiS aiT : Option String) (content craw : String),
      ((GeminiService.fallbackSummary content).wordCount =
          (splitRuns isJsWs content.toList).length ∧
        (GeminiService.fallbackSummary content).originalLength = utf16Len content.toList) ∧
      ((GeminiService.combinedSummary craw content).wordCount =
          (splitRuns isJsWs content.toList).length ∧
        (GeminiService.combinedSummary craw content).originalLength =
          utf16Len content.toList) ∧
      (∀ r, GeminiService.generateSummary available aiS content = Except.ok r →
        r.wordCount = (splitRuns isJsWs content.toList).length ∧
        r.originalLength = utf16Len content.toList) ∧
      (∀ s t, GeminiService.generateSummaryAndTranslation available aiC aiS aiT content =
          Except.ok (s, t) →
        s.wordCount = (splitRuns isJsWs content.toList).length ∧
        s.originalLength = utf16Len content.toList) := by
  intro available aiC aiS aiT content craw
  refine ⟨⟨rfl, rfl⟩, ⟨rfl, rfl⟩, ?_, ?_⟩
  · intro r h
    cases available with
    | false => simp [GeminiService.generateSummary] at h
    | true =>
      cases aiS with
      | none =>
        simp only [GeminiService.generateSummary, Bool.not_true, Bool.false_eq_true,
          if_false, Except.ok.injEq] at h
        subst h
        exact ⟨rfl, rfl⟩
      | some raw =>
        simp only [GeminiService.generateSummary, Bool.not_true, Bool.false_eq_true,
          if_false, Except.ok.injEq] at h
        subst h
        exact ⟨rfl, rfl⟩
  · intro s t h
    cases available with
    | false => simp [GeminiService.generateSummaryAndTranslation] at h
    | true =>
      cases aiC with
      | some raw =>
        by_cases hthrow : GeminiService.combinedThrows raw
        · simp only [GeminiService.generateSummaryAndTranslation, Bool.not_true,
            Bool.false_eq_true, if_false, hthrow, if_true] at h
          exact separateCalls_counts aiS aiT content s t h
        · have hthrow2 : GeminiService.combinedThrows raw = false := by
            simpa using hthrow
          simp only [GeminiService.generateSummaryAndTranslation, Bool.not_true,
            Bool.false_eq_true, if_false, hthrow2, Except.ok.injEq, Prod.mk.injEq] at h
          obtain ⟨h1, h2⟩ := h
          subst h1
          exact ⟨rfl, rfl⟩
      | none =>
        simp only [GeminiService.generateSummaryAndTranslation, Bool.not_true,
          Bool.false_eq_true, if_false] at h
        exact separateCalls_counts aiS aiT content s t h

/-- Claim C1 witness: the amended theorem applied at concrete inputs,
    discharging the success hypotheses of the summarize and combined
    paths by computation. -/
theorem c1_orchestrator_counts_witness :
    (GeminiService.fallbackSummary "ab cd").wordCount = 2 ∧
    (GeminiService.fallbackSummary "ab cd").originalLength = 5 ∧
    (splitRuns isJsWs "ab cd".toList).length = 2 := by
  have h3 := (c1_orchestrator_counts true none none none "ab cd" "x").2.2.1
    (GeminiService.fallbackSummary "ab cd") rfl
  have h4 := (c1_orchestrator_counts true (some "x") none none "ab cd" "x").2.2.2
    (GeminiService.combinedSummary "x" "ab cd") (GeminiService.combinedTranslation "x") rfl
  refine ⟨?_, ?_, h4.1.symm⟩
  · rw [h3.1]
    rfl
  · rw [h3.2]
    rfl

theorem mem_of_mem_jsTrim {c : Char} {l : List Char} (h : c ∈ jsTrim l) : c ∈ l := by
  unfold jsTrim at h
  rw [List.mem_reverse] at h
  have h2 := (List.dropWhile_sublist isJsWs).subset h
  rw [List.mem_reverse] at h2
  exact (List.dropWhile_sublist isJsWs).subset h2

theorem mem_cleanList_allowed {c : Char} {content : String}
    (h : c ∈ Summarizer.cleanList content) : Summarizer.allowedInClean c = true := by
  unfold Summarizer.cleanList at h
  exact List.of_mem_filter (mem_of_mem_jsTrim h)

theorem bullet_not_allowed {c : Char} (h : Summarizer.isBulletChar c = true) :
    Summarizer.allowedInClean c = false := by
  unfold Summarizer.isBulletChar at h
  have hm : c ∈ ['•', '·', '-', '*'] := by simpa using h
  fin_cases hm <;> rfl

theorem bulletScanGo_nil (fuel : Nat) (l : List Char)
    (h : ∀ c ∈ l, Summarizer.isBulletChar c = false) :
    Summarizer.bulletScanGo fuel l = [] := by
  induction fuel generalizing l with
  | zero => rfl
  | succ n ih =>
    cases l with
    | nil => rfl
    | cons c rest =>
      have hc := h c (List.mem_cons_self c rest)
      simp only [Summarizer.bulletScanGo, hc, Bool.false_eq_true, if_false]
      exact ih rest (fun d hd => h d (List.mem_cons_of_mem c hd))

theorem cleanList_no_bullet (content : String) :
    ∀ c ∈ Summarizer.cleanList content, Summarizer.isBulletChar c = false := by
  intro c hc
  cases hb : Summarizer.isBulletChar c with
  | false => rfl
  | true =>
    have h1 := mem_cleanList_allowed hc
    rw [bullet_not_allowed hb] at h1
    exact absurd h1 (by simp)

theorem bulletItems_cleanList (content : String) :
    Summarizer.bulletItems (Summarizer.cleanList content) = [] := by
  unfold Summarizer.bulletItems Summarizer.bulletMatches
  rw [bulletScanGo_nil _ _ (cleanList_no_bullet content)]
  rfl

/-- Claim C10: the Text Cleaner never lets a bullet glyph through, so
    the bulleted-item regex has no match on cleaned content and the
    list-item phase of `extractKeyPoints` reduces to the numbered-item
    extraction alone. -/
theorem c10_no_bullets :
    ∀ content : String,
      (∀ c ∈ Summarizer.cleanList content, Summarizer.isBulletChar c = false) ∧
      Summarizer.bulletItems (Summarizer.cleanList content) = [] ∧
      (∀ sentences, Summarizer.extractKeyPoints (Summarizer.cleanList content) sentences =
        (let pts := Summarizer.numberedItems (Summarizer.cleanList content)
         let pts2 := if pts.isEmpty then (sentences.filter Summarizer.hasKeyword).take 3 else pts
         let pts3 := if pts2.isEmpty then sentences.take 3 else pts2
         pts3.take 5)) := by
  intro content
  refine ⟨cleanList_no_bullet content, bulletItems_cleanList content, ?_⟩
  intro sentences
  unfold Summarizer.extractKeyPoints
  rw [bulletItems_cleanList content, List.nil_append]

/-- Claim C10 witness: the theorem applied at `"a- b"` (whose cleaned
    content keeps the letter `a`, which is not a bullet glyph) and the
    empty sentence list. -/
theorem c10_no_bullets_witness :
    Summarizer.isBulletChar 'a' = false ∧
    Summarizer.bulletItems (Summarizer.cleanList "a- b") = [] ∧
    Summarizer.extractKeyPoints (Summarizer.cleanList "a- b") [] = [] := by
  have h := c10_no_bullets "a- b"
  refine ⟨h.1 'a' (by decide), h.2.1, ?_⟩
  rw [h.2.2 []]
  rfl

/-- Claim C6 counterexample: on `"1) ab. cd. ef. gh. ij. kl"` no
    sentence candidate survives filtering, yet the numbered-item regex
    still extracts a key point, so `keyPoints` is not empty. -/
theorem c6_counterexample :
    Summarizer.sentCandidates "1) ab. cd. ef. gh. ij. kl" = [] ∧
    (Summarizer.generateStaticSummary "1) ab. cd. ef. gh. ij. kl").summary =
      Json.str "Unable to generate summary from the provided content." ∧
    (Summarizer.generateStaticSummary "1) ab. cd. ef. gh. ij. kl").keyPoints =
      Json.arr [Json.str "ab. cd. ef. gh. ij. kl"] ∧
    Json.arr [Json.str "ab. cd. ef. gh. ij. kl"] ≠ Json.arr [] := by
  refine ⟨rfl, rfl, rfl, ?_⟩
  intro hcon
  simp at hcon

/-- Claim C6 (amended): when no sentence candidate survives filtering,
    the summary is the literal fallback string, and the key points are
    exactly the numbered-item extractions of the cleaned content (capped
    at 5) — an empty list only when the cleaned content has no
    acceptable numbered item. -/
theorem c6_no_survivor :
    ∀ content : String, Summarizer.sentCandidates content = [] →
      (Summarizer.generateStaticSummary content).summary =
        Json.str "Unable to generate summary from the provided content." ∧
      (Summarizer.generateStaticSummary content).keyPoints =
        Json.arr (((Summarizer.numberedItems (Summarizer.cleanList content)).take 5).map
          (fun p => Json.str (String.mk p))) := by
  intro content h
  have htop : Summarizer.topSentences content = [] := by
    unfold Summarizer.topSentences Summarizer.scoredSentences
    rw [h]
    rfl
  have hsum : Summarizer.summaryText content = [] := by
    unfold Summarizer.summaryText
    rw [htop]
    rfl
  have hkp : Summarizer.extractKeyPoints (Summarizer.cleanList content)
      (Summarizer.sentCandidates content) =
      (Summarizer.numberedItems (Summarizer.cleanList content)).take 5 := by
    rw [h]
    unfold Summarizer.extractKeyPoints
    rw [bulletItems_cleanList content, List.nil_append]
    cases hn : (Summarizer.numberedItems (Summarizer.cleanList content)).isEmpty with
    | true =>
      rw [List.isEmpty_iff] at hn
      simp [hn]
    | false =>
      simp [hn]
  constructor
  · simp only [Summarizer.generateStaticSummary, hsum, List.isEmpty_nil, if_true]
  · simp only [Summarizer.generateStaticSummary, hkp]

/-- Claim C6 witness: the amended theorem applied at `"tiny. text."`,
    where every candidate is filtered out and no numbered item exists,
    so the key points are empty. -/
theorem c6_no_survivor_witness :
    (Summarizer.generateStaticSummary "tiny. text.").summary =
      Json.str "Unable to generate summary from the provided content." ∧
    (Summarizer.generateStaticSummary "tiny. text.").keyPoints = Json.arr [] := by
  have h := c6_no_survivor "tiny. text." rfl
  refine ⟨h.1, ?_⟩
  rw [h.2]
  rfl

theorem splitRunsGo_length (p : Char → Bool) :
    ∀ (l acc : List Char) (inSep : Bool),
      (splitRunsGo p l acc inSep).length = 1 + countRunsGo p inSep l := by
  intro l
  induction l with
  | nil => intro acc inSep; rfl
  | cons c rest ih =>
    intro acc inSep
    cases inSep <;> by_cases hc : p c <;>
      simp [splitRunsGo, countRunsGo, hc, ih] <;> omega

theorem countRuns_words_seps (p : Char → Bool) :
    ∀ l : List Char, (∀ c, l.getLast? = some c → p c = false) →
      countRunsGo (fun c => !p c) true l = countRunsGo p false l ∧
      (l ≠ [] → countRunsGo (fun c => !p c) false l = countRunsGo p true l + 1) := by
  intro l
  induction l with
  | nil =>
    intro _
    exact ⟨rfl, fun hne => absurd rfl hne⟩
  | cons c rest ih =>
    intro hlast
    have hrest : ∀ d, rest.getLast? = some d → p d = false := by
      intro d hd
      apply hlast
      cases rest with
      | nil => exact absurd hd (by simp)
      | cons e es => rw [List.getLast?_cons_cons]; exact hd
    have hcnil : rest = [] → p c = false := by
      intro hr
      apply hlast
      subst hr
      rfl
    obtain ⟨ih1, ih2⟩ := ih hrest
    constructor
    · by_cases hc : p c
      · have hrne : rest ≠ [] := by
          intro hr
          rw [hcnil hr] at hc
          exact absurd hc (by simp)
        have h2 := ih2 hrne
        simp [countRunsGo, hc, h2]
        omega
      · simp [countRunsGo, hc, ih1]
    · intro _
      by_cases hc : p c
      · have hrne : rest ≠ [] := by
          intro hr
          rw [hcnil hr] at hc
          exact absurd hc (by simp)
        have h2 := ih2 hrne
        simp [countRunsGo, hc, h2]
      · simp [countRunsGo, hc, ih1]
        omega

theorem splitRuns_length_eq_words (p : Char → Bool) (l : List Char) (hne : l ≠ [])
    (hhead : ∀ c, l.head? = some c → p c = false)
    (hlast : ∀ c, l.getLast? = some c → p c = false) :
    (splitRuns p l).length = countRuns (fun c => !p c) l := by
  obtain ⟨ih1, ih2⟩ := countRuns_words_seps p l hlast
  have h2 := ih2 hne
  have h3 : countRunsGo p true l = countRunsGo p false l := by
    cases l with
    | nil => rfl
    | cons c rest =>
      have hc : p c = false := hhead c rfl
      simp [countRunsGo, hc]
  unfold splitRuns countRuns
  rw [splitRunsGo_length p l [] false, h2, h3]
  omega

theorem head?_dropWhile_not (p : Char → Bool) (l : List Char) :
    ∀ c, (l.dropWhile p).head? = some c → p c = false := by
  induction l with
  | nil => intro c hc; exact absurd hc (by simp)
  | cons d rest ih =>
    intro c hc
    by_cases hd : p d
    · rw [List.dropWhile_cons_of_pos hd] at hc
      exact ih c hc
    · rw [List.dropWhile_cons_of_neg hd] at hc
      simp only [List.head?_cons, Option.some.injEq] at hc
      subst hc
      simpa using hd

theorem getLast?_dropWhile_of_ne (p : Char → Bool) (l : List Char)
    (h : l.dropWhile p ≠ []) :
    (l.dropWhile p).getLast? = l.getLast? := by
  induction l with
  | nil => exact absurd rfl h
  | cons c rest ih =>
    by_cases hc : p c
    · rw [List.dropWhile_cons_of_pos hc] at h ⊢
      have hrne : rest ≠ [] := by
        intro hr
        subst hr
        exact h rfl
      rw [ih h]
      cases rest with
      | nil => exact absurd rfl hrne
      | cons e es => rw [List.getLast?_cons_cons]
    · rw [List.dropWhile_cons_of_neg hc]

theorem jsTrim_head_not_ws (l : List Char) :
    ∀ c, (jsTrim l).head? = some c → isJsWs c = false := by
  intro c hc
  unfold jsTrim at hc
  rw [List.head?_reverse] at hc
  have hyne : (l.dropWhile isJsWs).reverse.dropWhile isJsWs ≠ [] := by
    intro h0
    rw [h0] at hc
    exact absurd hc (by simp)
  rw [getLast?_dropWhile_of_ne _ _ hyne, List.getLast?_reverse] at hc
  exact head?_dropWhile_not _ _ c hc

theorem jsTrim_last_not_ws (l : List Char) :
    ∀ c, (jsTrim l).getLast? = some c → isJsWs c = false := by
  intro c hc
  unfold jsTrim at hc
  rw [List.getLast?_reverse] at hc
  exact head?_dropWhile_not _ _ c hc

theorem allowed_bmp {c : Char} (h : Summarizer.allowedInClean c = true) :
    c.toNat < 0x10000 := by
  unfold Summarizer.allowedInClean Summarizer.isWordChar isJsWs at h
  simp only [Bool.or_eq_true, Bool.and_eq_true, decide_eq_true_eq, beq_iff_eq] at h
  rcases h with (hw | hws) | hp
  · omega
  · omega
  · have hm : c ∈ ['.', ',', '!', '?', ';', ':', '(', ')'] := by simpa using hp
    fin_cases hm <;> decide

theorem utf16Len_eq_length_of_bmp (l : List Char) (h : ∀ c ∈ l, c.toNat < 0x10000) :
    utf16Len l = l.length := by
  induction l with
  | nil => rfl
  | cons c rest ih =>
    have hc := h c (List.mem_cons_self c rest)
    unfold utf16Len at ih ⊢
    simp only [List.map_cons, List.sum_cons, List.length_cons]
    rw [if_neg (by omega), ih (fun d hd => h d (List.mem_cons_of_mem c hd))]
    omega

/-- Claim C7 counterexample: on `"@@@"` the cleaned content is empty and
    has zero whitespace-separated words, yet the returned `wordCount` is
    1 (the JS split of the empty string yields one empty piece). -/
theorem c7_counterexample :
    Summarizer.cleanContent "@@@" = "" ∧
    (Summarizer.generateStaticSummary "@@@").wordCount = 1 ∧
    countRuns (fun c => !isJsWs c) (Summarizer.cleanList "@@@") = 0 :=
  ⟨rfl, rfl, rfl⟩

/-- Claim C7 (amended): `originalLength` always equals the character
    count of the cleaned input (the cleaned input is ASCII, so UTF-16
    units and characters agree); `wordCount` equals the number of
    whitespace-separated words of the cleaned input whenever the cleaned
    input is nonempty, and is 1 when the cleaned input is empty —
    independent of sentence selection in both cases. -/
theorem c7_cleaned_counts :
    ∀ content : String,
      (Summarizer.generateStaticSummary content).originalLength =
        utf16Len (Summarizer.cleanList content) ∧
      utf16Len (Summarizer.cleanList content) = (Summarizer.cleanList content).length ∧
      (Summarizer.cleanList content ≠ [] →
        (Summarizer.generateStaticSummary content).wordCount =
          countRuns (fun c => !isJsWs c) (Summarizer.cleanList content)) ∧
      (Summarizer.cleanList content = [] →
        (Summarizer.generateStaticSummary content).wordCount = 1) := by
  intro content
  refine ⟨rfl, ?_, ?_, ?_⟩
  · exact utf16Len_eq_length_of_bmp _ (fun c hc => allowed_bmp (mem_cleanList_allowed hc))
  · intro hne
    have hw : (Summarizer.generateStaticSummary content).wordCount =
        (splitRuns isJsWs (Summarizer.cleanList content)).length := rfl
    rw [hw]
    apply splitRuns_length_eq_words isJsWs _ hne
    · intro c hc
      exact jsTrim_head_not_ws _ c hc
    · intro c hc
      exact jsTrim_last_not_ws _ c hc
  · intro hnil
    have hw : (Summarizer.generateStaticSummary content).wordCount =
        (splitRuns isJsWs (Summarizer.cleanList content)).length := rfl
    rw [hw, hnil]
    rfl

/-- Claim C7 witness: the amended theorem applied at
    `"hello@@@ world"` (nonempty cleaned content, two words) and at
    `"@@@"` (empty cleaned content). -/
theorem c7_cleaned_counts_witness :
    (Summarizer.generateStaticSummary "hello@@@ world").wordCount = 2 ∧
    countRuns (fun c => !isJsWs c) (Summarizer.cleanList "hello@@@ world") = 2 ∧
    (Summarizer.generateStaticSummary "@@@").wordCount = 1 := by
  have h := (c7_cleaned_counts "hello@@@ world").2.2.1 (by decide)
  have h0 := (c7_cleaned_counts "@@@").2.2.2 rfl
  refine ⟨?_, rfl, h0⟩
  rw [h]
  rfl
